import Mathlib

/-!
Verification of the TPS battle-test harness.

The repository drives a blockchain JSON-RPC endpoint: it funds ephemeral
sender accounts, generates and pre-signs a batch of transactions (ETH
transfers, ERC20 token transfers, Uniswap swaps), broadcasts them through a
bounded worker pool, polls for receipts, and cross-checks claimed hashes
against on-chain blocks.

This file gives a shallow embedding of the pure decision logic of that
pipeline, translated directly from the JavaScript source:

* `categorizeError` / `categorizeErrorSimple` — the broadcast error
  classifiers inside the two drivers' `fireAndForgetBroadcast`, including the
  `toLowerCase` call and the case-sensitive `includes` checks exactly as
  written in the source (the simple driver's classifier has no
  execution-reverted check);
* `parseTxMix`, `ethCountOf`, `tokenCountOf`, `swapCountOf` — transaction-mix
  normalization and per-type share computation of the payload generator;
* `txAssignments`, `generateTxs` — the interleaved type-assignment loop and
  the round-robin descriptor builder with its per-sender nonce map
  (`senderNonces`), where the initial nonce function models the single
  up-front `getNonce` query per sender: no further nonce query occurs while
  descriptors are produced;
* `prepareTxsSimple` — the chunked per-sender descriptor builder of the
  simple driver (`prepareAndSignTransactions`);
* `generatePayloadChecked` — the contract-address validation that runs
  before descriptor generation, returning `Except` for the `throw` paths;
* `broadcastStep` / `fireAndForgetBroadcast` — the per-envelope outcome
  accounting of the broadcast worker pool, sequentialized (each worker pulls
  a distinct index, so each envelope is processed exactly once; the order in
  which outcomes are recorded does not affect the counters);
* `waitLoop` — the receipt-polling loop of `waitForConfirmations`, with
  rounds as explicit fuel standing for the wall-clock timeout;
* `sampleVerifyOne` — the per-transaction sample direct-fetch check of
  `analyzeBlockTPS` in the simple driver, including the catch branch that
  records the thrown message as the failure reason; and
  `sampleVerifiedMixed` / `sampleSizeMixed` — the mixed driver's sample
  figures, which are computed from the verified count alone without any
  direct fetch;
* `blockFetchPlanMixed` / `blockFetchPlanSimple` / `countIncluded` — the
  block-fetch plans of the two drivers (hash lists only) and the
  claimed-hash inclusion counter;
* `mainExitMixed` / `mainExitSimple` — the explicit fatal-exit decision
  structure of the two `main` drivers over abstract phase outcomes.
-/

namespace TpsTest

/-! ## JavaScript string semantics -/

/-- ASCII lower-casing of one character, as `String.prototype.toLowerCase`
acts on the ASCII error messages in play. -/
def toLowerChar (c : Char) : Char :=
  if 'A' ≤ c ∧ c ≤ 'Z' then Char.ofNat (c.toNat + 32) else c

/-- `s.toLowerCase()` on ASCII strings. -/
def lowerStr (s : String) : String :=
  ⟨s.data.map toLowerChar⟩

/-- Whether `needle` is a prefix of the second list (character lists). -/
def listPrefix : List Char → List Char → Bool
  | [], _ => true
  | _ :: _, [] => false
  | a :: as, b :: bs => a == b && listPrefix as bs

/-- Whether `needle` occurs as a contiguous sublist. -/
def listIncludes (needle : List Char) : List Char → Bool
  | [] => needle.isEmpty
  | b :: bs => listPrefix needle (b :: bs) || listIncludes needle bs

/-- `haystack.includes(needle)` of JavaScript (case-sensitive substring
containment). -/
def includes (haystack needle : String) : Bool :=
  listIncludes needle.data haystack.data

/-! ## Broadcast error classifier

Translated from the `categorizeError` closures inside the two drivers'
`fireAndForgetBroadcast`.  The JavaScript guard `if (!errorMsg) return
'unknown'` is falsy both for a missing message and for the empty string, so
the argument is an `Option String` and the empty string is checked
explicitly.  Both sources lower-case the message once and then run every
`includes` check, including the upper-case needles `ETIMEDOUT` and
`ECONNREFUSED`, against that lower-cased text.  The drivers differ in one
rule: only the mixed driver checks `execution reverted` (as its final
check); the simple driver has no such rule and classifies those messages
`other`. -/

/-- The substring-matching chain of `categorizeError`, applied to the
already lower-cased message `msg`. -/
def categorizeLower (msg : String) : String :=
  if includes msg "max fee per gas less than block base fee" then "gas_price_too_low"
  else if includes msg "nonce too low" then "nonce_too_low"
  else if includes msg "nonce too high" then "nonce_too_high"
  else if includes msg "already known" then "already_known"
  else if includes msg "replacement transaction underpriced" then "replacement_underpriced"
  else if includes msg "insufficient funds" then "insufficient_funds"
  else if includes msg "intrinsic gas too low" then "gas_too_low"
  else if includes msg "timeout" || includes msg "ETIMEDOUT" then "timeout"
  else if includes msg "connection" || includes msg "ECONNREFUSED" then "connection_error"
  else if includes msg "execution reverted" then "execution_reverted"
  else "other"

def categorizeError (errorMsg : Option String) : String :=
  match errorMsg with
  | none => "unknown"
  | some s =>
    if s.isEmpty then "unknown"
    else categorizeLower (lowerStr s)

/-- The substring-matching chain of the simple driver's `categorizeError`:
identical to the mixed driver's chain except that there is no
`execution reverted` rule. -/
def categorizeLowerSimple (msg : String) : String :=
  if includes msg "max fee per gas less than block base fee" then "gas_price_too_low"
  else if includes msg "nonce too low" then "nonce_too_low"
  else if includes msg "nonce too high" then "nonce_too_high"
  else if includes msg "already known" then "already_known"
  else if includes msg "replacement transaction underpriced" then "replacement_underpriced"
  else if includes msg "insufficient funds" then "insufficient_funds"
  else if includes msg "intrinsic gas too low" then "gas_too_low"
  else if includes msg "timeout" || includes msg "ETIMEDOUT" then "timeout"
  else if includes msg "connection" || includes msg "ECONNREFUSED" then "connection_error"
  else "other"

/-- The simple driver's error classifier. -/
def categorizeErrorSimple (errorMsg : Option String) : String :=
  match errorMsg with
  | none => "unknown"
  | some s =>
    if s.isEmpty then "unknown"
    else categorizeLowerSimple (lowerStr s)

/-- Disjunction of every substring check performed by `categorizeError`. -/
def matchesKnownSubstring (msg : String) : Bool :=
  includes msg "max fee per gas less than block base fee"
  || includes msg "nonce too low"
  || includes msg "nonce too high"
  || includes msg "already known"
  || includes msg "replacement transaction underpriced"
  || includes msg "insufficient funds"
  || includes msg "intrinsic gas too low"
  || includes msg "timeout" || includes msg "ETIMEDOUT"
  || includes msg "connection" || includes msg "ECONNREFUSED"
  || includes msg "execution reverted"

/-! ### Claims C2 and C10 -/

/-- C2 (counterexample).  The claim asserts the classifier checks
execution-reverted before timeout and connection-error, and that each
documented substring maps to its documented category.  The mixed driver
checks `execution reverted` last, so a message containing both
`execution reverted` and `timeout` is classified `timeout`; the
case-sensitive `ETIMEDOUT` check can never fire on the lower-cased message,
so the bare message `ETIMEDOUT` is classified `other`, not `timeout`; and
the simple driver has no execution-reverted rule at all, classifying even a
bare `execution reverted` message as `other`. -/
theorem categorizeError_priority_counterexample :
    categorizeError (some "execution reverted: timeout") = "timeout"
    ∧ "timeout" ≠ "execution_reverted"
    ∧ categorizeError (some "ETIMEDOUT") = "other"
    ∧ "other" ≠ "timeout"
    ∧ categorizeErrorSimple (some "execution reverted") = "other"
    ∧ "other" ≠ "execution_reverted" := by
  refine ⟨by decide, by decide, by decide, by decide, by decide, by decide⟩

/-- C2 (amended).  The mixed driver's classifier matches lower-cased
substrings in the fixed priority order gas-price-too-low, nonce-too-low,
nonce-too-high, already-known, replacement-underpriced, insufficient-funds,
gas-limit-too-low, timeout, connection-error and finally execution-reverted;
the simple driver's classifier performs the same checks in the same order
but has no execution-reverted rule, so such messages map to `other` there.
In both, each lower-case documented substring maps to its documented
category (execution-reverted only in the mixed driver), the upper-case
needles `ETIMEDOUT` and `ECONNREFUSED` never match because the message is
lower-cased first (such messages fall through to `other`), and a
non-matching non-empty message maps to `other`. -/
theorem categorizeError_table :
    categorizeError (some "max fee per gas less than block base fee") = "gas_price_too_low"
    ∧ categorizeError (some "nonce too low") = "nonce_too_low"
    ∧ categorizeError (some "nonce too high") = "nonce_too_high"
    ∧ categorizeError (some "already known") = "already_known"
    ∧ categorizeError (some "replacement transaction underpriced") = "replacement_underpriced"
    ∧ categorizeError (some "insufficient funds") = "insufficient_funds"
    ∧ categorizeError (some "intrinsic gas too low") = "gas_too_low"
    ∧ categorizeError (some "timeout") = "timeout"
    ∧ categorizeError (some "connection") = "connection_error"
    ∧ categorizeError (some "execution reverted") = "execution_reverted"
    ∧ categorizeError (some "ETIMEDOUT") = "other"
    ∧ categorizeError (some "ECONNREFUSED") = "other"
    ∧ categorizeError (some "some unrecognized failure") = "other"
    ∧ categorizeError (some "execution reverted: timeout") = "timeout"
    ∧ categorizeError (some "execution reverted on connection") = "connection_error"
    ∧ categorizeError (some "insufficient funds, nonce too low") = "nonce_too_low"
    ∧ categorizeErrorSimple (some "max fee per gas less than block base fee")
        = "gas_price_too_low"
    ∧ categorizeErrorSimple (some "nonce too low") = "nonce_too_low"
    ∧ categorizeErrorSimple (some "nonce too high") = "nonce_too_high"
    ∧ categorizeErrorSimple (some "already known") = "already_known"
    ∧ categorizeErrorSimple (some "replacement transaction underpriced")
        = "replacement_underpriced"
    ∧ categorizeErrorSimple (some "insufficient funds") = "insufficient_funds"
    ∧ categorizeErrorSimple (some "intrinsic gas too low") = "gas_too_low"
    ∧ categorizeErrorSimple (some "timeout") = "timeout"
    ∧ categorizeErrorSimple (some "connection") = "connection_error"
    ∧ categorizeErrorSimple (some "execution reverted") = "other"
    ∧ categorizeErrorSimple (some "ETIMEDOUT") = "other"
    ∧ categorizeErrorSimple (some "ECONNREFUSED") = "other"
    ∧ categorizeErrorSimple (some "some unrecognized failure") = "other"
    ∧ categorizeErrorSimple (some "execution reverted: timeout") = "timeout"
    ∧ categorizeErrorSimple (some "insufficient funds, nonce too low") = "nonce_too_low" := by
  repeat refine ⟨by decide, ?_⟩
  decide

/-- The chain returns `other` exactly when no checked substring occurs. -/
theorem categorizeLower_eq_other_iff (msg : String) :
    categorizeLower msg = "other" ↔ matchesKnownSubstring msg = false := by
  unfold categorizeLower
  split_ifs with h1 h2 h3 h4 h5 h6 h7 h8 h9 h10
  · exact iff_of_false (by decide) (by simp [matchesKnownSubstring, h1])
  · exact iff_of_false (by decide) (by simp [matchesKnownSubstring, h2])
  · exact iff_of_false (by decide) (by simp [matchesKnownSubstring, h3])
  · exact iff_of_false (by decide) (by simp [matchesKnownSubstring, h4])
  · exact iff_of_false (by decide) (by simp [matchesKnownSubstring, h5])
  · exact iff_of_false (by decide) (by simp [matchesKnownSubstring, h6])
  · exact iff_of_false (by decide) (by simp [matchesKnownSubstring, h7])
  · refine iff_of_false (by decide) ?_
    simp only [Bool.or_eq_true] at h8
    rcases h8 with h | h <;> simp [matchesKnownSubstring, h]
  · refine iff_of_false (by decide) ?_
    simp only [Bool.or_eq_true] at h9
    rcases h9 with h | h <;> simp [matchesKnownSubstring, h]
  · exact iff_of_false (by decide) (by simp [matchesKnownSubstring, h10])
  · refine iff_of_true rfl ?_
    simp only [Bool.or_eq_true, not_or, Bool.not_eq_true] at h1 h2 h3 h4 h5 h6 h7 h8 h9 h10
    simp [matchesKnownSubstring, h1, h2, h3, h4, h5, h6, h7, h8.1, h8.2, h9.1, h9.2, h10]

/-- C10.  The classifier returns `unknown` — distinct from `other` — exactly
when the message is absent or empty, and returns `other` exactly for a
non-empty message in which none of the checked substrings occurs. -/
theorem categorizeError_unknown_vs_other :
    categorizeError none = "unknown"
    ∧ categorizeError (some "") = "unknown"
    ∧ "unknown" ≠ "other"
    ∧ ∀ s : String, categorizeError (some s) = "other"
        ↔ (s.isEmpty = false ∧ matchesKnownSubstring (lowerStr s) = false) := by
  refine ⟨by decide, by decide, by decide, ?_⟩
  intro s
  simp only [categorizeError]
  by_cases he : s.isEmpty
  · simp only [he, if_true]
    exact iff_of_false (by decide) (by simp [he])
  · rw [if_neg he]
    rw [Bool.not_eq_true] at he
    rw [categorizeLower_eq_other_iff]
    simp [he]

/-! ## Transaction-type mix

`parseTxMix` normalizes the raw `eth:token:swap` percentages by scaling each
against the raw total and rounding (`Math.round((eth / total) * 100)`).
`Math.round` on non-negative reals is `fun x => Int.toNat floor (x + 1/2)`;
on the rational `num / den` this is `(2 * num + den) / (2 * den)` in natural
division, which is how it is modelled here. -/

/-- `Math.round (num / den)` for non-negative integer `num`, `den`. -/
def jsRound (num den : Nat) : Nat :=
  (2 * num + den) / (2 * den)

structure TxMix where
  ethTransfer : Nat
  tokenTransfer : Nat
  swap : Nat
deriving DecidableEq

/-- Normalization step of `parseTxMix` on already-parsed percentages. -/
def parseTxMix (eth token swap : Nat) : TxMix :=
  let total := eth + token + swap
  { ethTransfer := jsRound (eth * 100) total
    tokenTransfer := jsRound (token * 100) total
    swap := jsRound (swap * 100) total }

/-- Sum of the three normalized percentages. -/
def mixSum (m : TxMix) : Nat :=
  m.ethTransfer + m.tokenTransfer + m.swap

/-! ## Per-type transaction counts and the interleaved assignment list

From `generatePayload`: the ETH and token counts are floored shares of the
requested count and the *entire remainder* goes to the swap type
(`swapCount = txCount - ethCount - tokenCount`, an integer that can be
negative when the floored shares overshoot; the assignment loop then treats
it as zero since its guard is `swapRemaining > 0`). -/

def ethCountOf (txCount ethPct : Nat) : Nat := txCount * ethPct / 100

def tokenCountOf (txCount tokenPct : Nat) : Nat := txCount * tokenPct / 100

/-- `swapCount = txCount - ethCount - tokenCount` over the integers. -/
def swapCountOf (txCount ethPct tokenPct : Nat) : Int :=
  (txCount : Int) - ethCountOf txCount ethPct - tokenCountOf txCount tokenPct

inductive TxType where
  | ethTransfer
  | tokenTransfer
  | swap
deriving DecidableEq

/-- The interleaving loop of `generatePayload`: while any remaining counter
is positive, push one assignment per positive counter and decrement it.
The loop runs at most `e + t + s` iterations, which is supplied as
structural fuel so that the definition computes by kernel reduction. -/
def txAssignmentsAux : Nat → Nat → Nat → Nat → List TxType
  | 0, _, _, _ => []
  | fuel + 1, e, t, s =>
    if e = 0 ∧ t = 0 ∧ s = 0 then []
    else
      ((if 0 < e then [TxType.ethTransfer] else [])
        ++ (if 0 < t then [TxType.tokenTransfer] else [])
        ++ (if 0 < s then [TxType.swap] else []))
        ++ txAssignmentsAux fuel (e - 1) (t - 1) (s - 1)

def txAssignments (e t s : Nat) : List TxType :=
  txAssignmentsAux (e + t + s) e t s

theorem txAssignmentsAux_counts :
    ∀ fuel e t s, e + t + s ≤ fuel →
    (txAssignmentsAux fuel e t s).count TxType.ethTransfer = e
    ∧ (txAssignmentsAux fuel e t s).count TxType.tokenTransfer = t
    ∧ (txAssignmentsAux fuel e t s).count TxType.swap = s
    ∧ (txAssignmentsAux fuel e t s).length = e + t + s := by
  intro fuel
  induction fuel with
  | zero =>
    intro e t s h
    have he : e = 0 := by omega
    have ht : t = 0 := by omega
    have hs : s = 0 := by omega
    subst he ht hs
    simp [txAssignmentsAux]
  | succ fuel ih =>
    intro e t s h
    rw [txAssignmentsAux]
    by_cases h0 : e = 0 ∧ t = 0 ∧ s = 0
    · obtain ⟨he, ht, hs⟩ := h0
      subst he ht hs
      simp
    · rw [if_neg h0]
      obtain ⟨ce, ct, cs, cl⟩ := ih (e - 1) (t - 1) (s - 1) (by omega)
      by_cases he : 0 < e <;> by_cases ht : 0 < t <;> by_cases hs : 0 < s <;>
        simp [he, ht, hs, List.count_append, List.count_cons, List.count_nil,
          ce, ct, cs, cl] <;> omega

theorem txAssignments_counts (e t s : Nat) :
    (txAssignments e t s).count TxType.ethTransfer = e
    ∧ (txAssignments e t s).count TxType.tokenTransfer = t
    ∧ (txAssignments e t s).count TxType.swap = s
    ∧ (txAssignments e t s).length = e + t + s :=
  txAssignmentsAux_counts (e + t + s) e t s le_rfl

/-! ### Claim C5 -/

/-- Natural division is superadditive. -/
theorem div_add_le (a b c : Nat) (hc : 0 < c) : a / c + b / c ≤ (a + b) / c := by
  rw [Nat.le_div_iff_mul_le hc]
  have ha := Nat.div_mul_le_self a c
  have hb := Nat.div_mul_le_self b c
  calc (a / c + b / c) * c = a / c * c + b / c * c := by ring
    _ ≤ a + b := Nat.add_le_add ha hb

/-- Natural division of a sum exceeds the sum of divisions by at most one. -/
theorem add_div_le (a b c : Nat) (hc : 0 < c) : (a + b) / c ≤ a / c + b / c + 1 := by
  have h1 := Nat.div_add_mod a c
  have h2 := Nat.div_add_mod b c
  have h3 := Nat.mod_lt a hc
  have h4 := Nat.mod_lt b hc
  have h5 : a + b < (a / c + b / c + 2) * c := by nlinarith [h1, h2, h3, h4]
  exact Nat.lt_succ_iff.mp ((Nat.div_lt_iff_lt_mul hc).mpr h5)

/-- The three normalized percentages of `parseTxMix` sum to a value within
one of 100 whenever the raw percentages are not all zero. -/
theorem mixSum_bounds (e t s : Nat) (h : 0 < e + t + s) :
    99 ≤ mixSum (parseTxMix e t s) ∧ mixSum (parseTxMix e t s) ≤ 101 := by
  have hd : 0 < 2 * (e + t + s) := by omega
  have h203 : (2 * (e * 100) + (e + t + s) + (2 * (t * 100) + (e + t + s))
      + (2 * (s * 100) + (e + t + s))) / (2 * (e + t + s)) = 101 := by
    rw [show 2 * (e * 100) + (e + t + s) + (2 * (t * 100) + (e + t + s))
        + (2 * (s * 100) + (e + t + s)) = (e + t + s) * 203 by ring,
      show 2 * (e + t + s) = (e + t + s) * 2 by ring,
      Nat.mul_div_mul_left 203 2 h]
  have hu1 := div_add_le (2 * (e * 100) + (e + t + s)) (2 * (t * 100) + (e + t + s))
    (2 * (e + t + s)) hd
  have hu2 := div_add_le (2 * (e * 100) + (e + t + s) + (2 * (t * 100) + (e + t + s)))
    (2 * (s * 100) + (e + t + s)) (2 * (e + t + s)) hd
  have hl1 := add_div_le (2 * (e * 100) + (e + t + s)) (2 * (t * 100) + (e + t + s))
    (2 * (e + t + s)) hd
  have hl2 := add_div_le (2 * (e * 100) + (e + t + s) + (2 * (t * 100) + (e + t + s)))
    (2 * (s * 100) + (e + t + s)) (2 * (e + t + s)) hd
  have hgoal : mixSum (parseTxMix e t s)
      = (2 * (e * 100) + (e + t + s)) / (2 * (e + t + s))
        + (2 * (t * 100) + (e + t + s)) / (2 * (e + t + s))
        + (2 * (s * 100) + (e + t + s)) / (2 * (e + t + s)) := by
    simp only [mixSum, parseTxMix, jsRound]
  rw [hgoal]
  constructor <;> linarith [h203, hu1, hu2, hl1, hl2]

/-- C5 (counterexample).  The claim asserts that whenever the raw mix
percentages do not sum to 100, the normalized percentages sum to exactly
100.  For the raw mix `1:1:1` each share normalizes to
`Math.round(100 / 3) = 33`, so the normalized percentages sum to 99. -/
theorem parseTxMix_counterexample :
    (1 + 1 + 1 ≠ 100)
    ∧ parseTxMix 1 1 1 = { ethTransfer := 33, tokenTransfer := 33, swap := 33 }
    ∧ mixSum (parseTxMix 1 1 1) = 99
    ∧ (99 : Nat) ≠ 100 := by
  refine ⟨by decide, by decide, by decide, by decide⟩

/-- C5 (amended).  The normalized percentages sum to a value within one of
100 (99, 100 or 101) whenever the raw percentages are not all zero; and
whenever the floored ETH and token shares do not overshoot the requested
count, the generated assignment list has exactly the requested length and
realizes exactly the floored ETH share, the floored token share, and the
remainder as swaps (the remainder agreeing with the integer
`swapCount = txCount - ethCount - tokenCount` of the source). -/
theorem mix_normalization_and_realized_counts :
    (∀ e t s : Nat, 0 < e + t + s →
      99 ≤ mixSum (parseTxMix e t s) ∧ mixSum (parseTxMix e t s) ≤ 101)
    ∧ (∀ txCount ethPct tokenPct : Nat,
        ethCountOf txCount ethPct + tokenCountOf txCount tokenPct ≤ txCount →
        (txAssignments (ethCountOf txCount ethPct) (tokenCountOf txCount tokenPct)
            (txCount - ethCountOf txCount ethPct - tokenCountOf txCount tokenPct)).length
          = txCount
        ∧ (txAssignments (ethCountOf txCount ethPct) (tokenCountOf txCount tokenPct)
            (txCount - ethCountOf txCount ethPct - tokenCountOf txCount tokenPct)).count
              TxType.ethTransfer = ethCountOf txCount ethPct
        ∧ (txAssignments (ethCountOf txCount ethPct) (tokenCountOf txCount tokenPct)
            (txCount - ethCountOf txCount ethPct - tokenCountOf txCount tokenPct)).count
              TxType.tokenTransfer = tokenCountOf txCount tokenPct
        ∧ (txAssignments (ethCountOf txCount ethPct) (tokenCountOf txCount tokenPct)
            (txCount - ethCountOf txCount ethPct - tokenCountOf txCount tokenPct)).count
              TxType.swap
            = (swapCountOf txCount ethPct tokenPct).toNat) := by
  constructor
  · exact mixSum_bounds
  · intro txCount ethPct tokenPct hle
    obtain ⟨ce, ct, cs, cl⟩ := txAssignments_counts (ethCountOf txCount ethPct)
      (tokenCountOf txCount tokenPct)
      (txCount - ethCountOf txCount ethPct - tokenCountOf txCount tokenPct)
    refine ⟨by omega, ce, ct, ?_⟩
    rw [cs]
    simp only [swapCountOf]
    omega

/-- Witness for `mix_normalization_and_realized_counts` at the raw mix
`1:1:1` and at a 70/20 percent split of 10 transactions. -/
theorem mix_normalization_witness :
    (0 < 1 + 1 + 1
      ∧ 99 ≤ mixSum (parseTxMix 1 1 1) ∧ mixSum (parseTxMix 1 1 1) ≤ 101)
    ∧ (ethCountOf 10 70 + tokenCountOf 10 20 ≤ 10
      ∧ (txAssignments (ethCountOf 10 70) (tokenCountOf 10 20)
          (10 - ethCountOf 10 70 - tokenCountOf 10 20)).length = 10) :=
  ⟨⟨by decide, mix_normalization_and_realized_counts.1 1 1 1 (by decide)⟩,
    ⟨by decide, (mix_normalization_and_realized_counts.2 10 70 20 (by decide)).1⟩⟩

/-! ## Unsigned transaction descriptors and nonce allocation

`generatePayload` queries each sender once (`senders.map(s => s.getNonce())`)
before the assignment loop; the map `senderNonces` is then the only source
of nonces while descriptors are produced (`senderNonces.get` followed by
`senderNonces.set(addr, nonce + 1)`).  The initial nonce function below
models that single up-front query; no nonce is read from anywhere else while
the list is built. -/

structure UnsignedTx where
  senderIdx : Nat
  nonce : Nat
  txType : TxType
  index : Nat
deriving DecidableEq

/-- `senderNonces.set(addr, v)` on the nonce map. -/
def setNonce (nm : Nat → Nat) (s v : Nat) : Nat → Nat :=
  fun x => if x = s then v else nm x

/-- The descriptor-building loop of `generatePayload`: descriptor `i` goes to
sender `i % numSenders`, takes that sender's current map nonce, and bumps
the map entry by one. -/
def buildTxsAux (numSenders : Nat) : List TxType → (Nat → Nat) → Nat → List UnsignedTx
  | [], _, _ => []
  | ty :: rest, nonceMap, i =>
    { senderIdx := i % numSenders, nonce := nonceMap (i % numSenders)
      txType := ty, index := i }
      :: buildTxsAux numSenders rest
          (setNonce nonceMap (i % numSenders) (nonceMap (i % numSenders) + 1)) (i + 1)

def generateTxs (assigns : List TxType) (numSenders : Nat)
    (initialNonces : Nat → Nat) : List UnsignedTx :=
  buildTxsAux numSenders assigns initialNonces 0

/-- Nonces handed to one sender by the building loop form the gap-free
run starting at that sender's current map entry. -/
theorem buildTxsAux_nonces (numSenders : Nat) (assigns : List TxType)
    (nm : Nat → Nat) (i s : Nat) :
    ((buildTxsAux numSenders assigns nm i).filter (fun d => d.senderIdx == s)).map
        (fun d => d.nonce)
      = List.range' (nm s)
          (((buildTxsAux numSenders assigns nm i).filter (fun d => d.senderIdx == s)).length) := by
  induction assigns generalizing nm i with
  | nil => simp [buildTxsAux]
  | cons ty rest ih =>
    simp only [buildTxsAux, List.filter_cons]
    by_cases hs : i % numSenders = s
    · subst hs
      rw [if_pos (show ((i % numSenders : Nat) == i % numSenders) = true by simp)]
      have hupd : setNonce nm (i % numSenders) (nm (i % numSenders) + 1) (i % numSenders)
          = nm (i % numSenders) + 1 := by
        simp [setNonce]
      have hih := ih (setNonce nm (i % numSenders) (nm (i % numSenders) + 1)) (i + 1)
      rw [hupd] at hih
      simp only [List.map_cons, List.length_cons, hih]
      rw [List.range'_succ]
    · rw [if_neg (show ¬(((i % numSenders : Nat) == s) = true) by simp [hs])]
      have hupd : setNonce nm (i % numSenders) (nm (i % numSenders) + 1) s = nm s := by
        simp only [setNonce]
        rw [if_neg (fun h => hs h.symm)]
      have hih := ih (setNonce nm (i % numSenders) (nm (i % numSenders) + 1)) (i + 1)
      rw [hupd] at hih
      exact hih

/-! The simple driver (`prepareAndSignTransactions`) distributes descriptors
in per-sender chunks instead: sender `senderIdx` receives up to
`txPerSender` consecutive descriptors, its local `nonce` variable starting
at the fetched `nonces[senderIdx]` and incrementing per descriptor. -/

/-- The inner loop of `prepareAndSignTransactions` for one sender:
`k` descriptors with consecutive nonces and indices. -/
def senderChunk (sIdx : Nat) : Nat → Nat → Nat → List UnsignedTx
  | _, _, 0 => []
  | nonce0, idx0, k + 1 =>
    { senderIdx := sIdx, nonce := nonce0, txType := TxType.ethTransfer, index := idx0 }
      :: senderChunk sIdx (nonce0 + 1) (idx0 + 1) k

/-- The outer loop of `prepareAndSignTransactions`: iterate over senders
while descriptors remain, giving each sender
`min txPerSender (txCount - txIndex)` descriptors. -/
def prepareTxsSimpleAux (initialNonces : Nat → Nat) (txPerSender txCount : Nat) :
    Nat → Nat → Nat → List UnsignedTx
  | 0, _, _ => []
  | sLeft + 1, sIdx, txIndex =>
    if txCount ≤ txIndex then []
    else
      senderChunk sIdx (initialNonces sIdx) txIndex (min txPerSender (txCount - txIndex))
        ++ prepareTxsSimpleAux initialNonces txPerSender txCount sLeft (sIdx + 1)
            (txIndex + min txPerSender (txCount - txIndex))

/-- `prepareAndSignTransactions` descriptor generation:
`txPerSender = Math.ceil(txCount / senders.length)`. -/
def prepareTxsSimple (numSenders txCount : Nat) (initialNonces : Nat → Nat) :
    List UnsignedTx :=
  prepareTxsSimpleAux initialNonces ((txCount + numSenders - 1) / numSenders) txCount
    numSenders 0 0

theorem senderChunk_nonces (sIdx : Nat) :
    ∀ k nonce0 idx0,
    ((senderChunk sIdx nonce0 idx0 k).filter (fun d => d.senderIdx == sIdx)).map
        (fun d => d.nonce) = List.range' nonce0 k := by
  intro k
  induction k with
  | zero => intro nonce0 idx0; simp [senderChunk]
  | succ k ih =>
    intro nonce0 idx0
    simp only [senderChunk, List.filter_cons]
    rw [if_pos (by simp)]
    simp only [List.map_cons, ih]
    rw [List.range'_succ]

theorem senderChunk_other (sIdx s : Nat) (hs : sIdx ≠ s) :
    ∀ k nonce0 idx0,
    (senderChunk sIdx nonce0 idx0 k).filter (fun d => d.senderIdx == s) = [] := by
  intro k
  induction k with
  | zero => intro nonce0 idx0; simp [senderChunk]
  | succ k ih =>
    intro nonce0 idx0
    simp only [senderChunk, List.filter_cons]
    rw [if_neg (by simp [hs])]
    exact ih _ _

theorem prepareTxsSimpleAux_later (initialNonces : Nat → Nat) (txPerSender txCount : Nat) :
    ∀ sLeft sIdx txIndex s, s < sIdx →
    (prepareTxsSimpleAux initialNonces txPerSender txCount sLeft sIdx txIndex).filter
        (fun d => d.senderIdx == s) = [] := by
  intro sLeft
  induction sLeft with
  | zero => intro sIdx txIndex s hlt; simp [prepareTxsSimpleAux]
  | succ sLeft ih =>
    intro sIdx txIndex s hlt
    rw [prepareTxsSimpleAux]
    split
    · simp
    · rw [List.filter_append, senderChunk_other sIdx s (by omega),
        ih (sIdx + 1) _ s (by omega)]
      simp

theorem prepareTxsSimpleAux_nonces (initialNonces : Nat → Nat) (txPerSender txCount : Nat) :
    ∀ sLeft sIdx txIndex s,
    ((prepareTxsSimpleAux initialNonces txPerSender txCount sLeft sIdx txIndex).filter
        (fun d => d.senderIdx == s)).map (fun d => d.nonce)
      = List.range' (initialNonces s)
          (((prepareTxsSimpleAux initialNonces txPerSender txCount sLeft sIdx txIndex).filter
              (fun d => d.senderIdx == s)).length) := by
  intro sLeft
  induction sLeft with
  | zero => intro sIdx txIndex s; simp [prepareTxsSimpleAux]
  | succ sLeft ih =>
    intro sIdx txIndex s
    rw [prepareTxsSimpleAux]
    split
    · simp
    · rw [List.filter_append]
      by_cases hs : sIdx = s
      · subst hs
        rw [prepareTxsSimpleAux_later initialNonces txPerSender txCount sLeft (sIdx + 1) _
            sIdx (by omega)]
        rw [List.append_nil]
        have hlen : ((senderChunk sIdx (initialNonces sIdx) txIndex
            (min txPerSender (txCount - txIndex))).filter
              (fun d => d.senderIdx == sIdx)).length
            = min txPerSender (txCount - txIndex) := by
          have := senderChunk_nonces sIdx (min txPerSender (txCount - txIndex))
            (initialNonces sIdx) txIndex
          have hl := congrArg List.length this
          simpa using hl
        rw [hlen, senderChunk_nonces]
      · rw [senderChunk_other sIdx s hs]
        simp only [List.nil_append]
        exact ih (sIdx + 1) _ s

/-- C1.  In both descriptor generators — the round-robin mixed generator
(`generatePayload`) and the chunked simple generator
(`prepareAndSignTransactions`) — the nonces assigned to any one sender form
the gap-free strictly increasing run
`initialNonces s, initialNonces s + 1, ...` starting at the nonce fetched
once for that sender before generation; the nonce map is consulted and
bumped locally, with no second query per descriptor. -/
theorem nonces_strictly_sequential_per_sender :
    (∀ (assigns : List TxType) (numSenders : Nat) (initialNonces : Nat → Nat) (s : Nat),
      ((generateTxs assigns numSenders initialNonces).filter
          (fun d => d.senderIdx == s)).map (fun d => d.nonce)
        = List.range' (initialNonces s)
            (((generateTxs assigns numSenders initialNonces).filter
                (fun d => d.senderIdx == s)).length))
    ∧ (∀ (numSenders txCount : Nat) (initialNonces : Nat → Nat) (s : Nat),
      ((prepareTxsSimple numSenders txCount initialNonces).filter
          (fun d => d.senderIdx == s)).map (fun d => d.nonce)
        = List.range' (initialNonces s)
            (((prepareTxsSimple numSenders txCount initialNonces).filter
                (fun d => d.senderIdx == s)).length)) := by
  constructor
  · intro assigns numSenders initialNonces s
    exact buildTxsAux_nonces numSenders assigns initialNonces 0 s
  · intro numSenders txCount initialNonces s
    exact prepareTxsSimpleAux_nonces initialNonces
      ((txCount + numSenders - 1) / numSenders) txCount numSenders 0 0 s

/-! ## Contract-address validation of `generatePayload` (claim C9)

`generatePayload` computes `ethCount` and `tokenCount` by flooring and
assigns the whole remainder to `swapCount`; it then throws
`Token address required for token transfers` when `tokenCount > 0` without a
token address, and `Router, WETH, and Token addresses required for swaps`
when `swapCount > 0` without router, WETH and token addresses — in that
order.  Only then is the assignment list built. -/

structure Contracts where
  token : Option String
  router : Option String
  weth : Option String
deriving DecidableEq

def generatePayloadChecked (txCount ethPct tokenPct : Nat) (contracts : Contracts)
    (numSenders : Nat) (initialNonces : Nat → Nat) : Except String (List UnsignedTx) :=
  let ethCount := ethCountOf txCount ethPct
  let tokenCount := tokenCountOf txCount tokenPct
  let swapCount := swapCountOf txCount ethPct tokenPct
  if 0 < tokenCount ∧ contracts.token = none then
    Except.error "Token address required for token transfers"
  else if 0 < swapCount
      ∧ (contracts.router = none ∨ contracts.weth = none ∨ contracts.token = none) then
    Except.error "Router, WETH, and Token addresses required for swaps"
  else
    Except.ok (generateTxs (txAssignments ethCount tokenCount swapCount.toNat)
      numSenders initialNonces)

/-- C9 (counterexample).  At the mix 67:33:0 with 10 transactions and no
configured contracts — the situation of the claim — generation does throw,
but with the token-address error, because the token check precedes the
swap check; the claimed router/WETH/token error is not the one raised. -/
theorem generatePayload_throw_counterexample :
    generatePayloadChecked 10 67 33 { token := none, router := none, weth := none } 1
        (fun _ => 0)
      = Except.error "Token address required for token transfers"
    ∧ ("Token address required for token transfers" : String)
      ≠ "Router, WETH, and Token addresses required for swaps" := by
  refine ⟨rfl, by decide⟩

/-- C9 (amended).  The mix 67:33:0 sums to exactly 100 with a zero swap
percentage, yet its floored shares (6 ETH + 3 token) do not cover 10, so the
computed swap count is 1: with all contract addresses configured, generation
succeeds and produces exactly one swap descriptor; with a token address but
no router/WETH, it throws the router/WETH/token error; with no contracts at
all, it throws the token-address error, which fires first. -/
theorem generatePayload_swap_remainder :
    (67 + 33 + 0 = 100)
    ∧ ethCountOf 10 67 = 6
    ∧ tokenCountOf 10 33 = 3
    ∧ swapCountOf 10 67 33 = 1
    ∧ (generatePayloadChecked 10 67 33
        { token := some "0xtoken", router := some "0xrouter", weth := some "0xweth" } 2
        (fun _ => 0)).toOption.map
          (fun l => (l.filter (fun d => d.txType == TxType.swap)).length)
      = some 1
    ∧ generatePayloadChecked 10 67 33
        { token := some "0xtoken", router := none, weth := none } 2 (fun _ => 0)
      = Except.error "Router, WETH, and Token addresses required for swaps"
    ∧ generatePayloadChecked 10 67 33 { token := none, router := none, weth := none } 2
        (fun _ => 0)
      = Except.error "Token address required for token transfers" := by
  refine ⟨by decide, by decide, by decide, by decide, by decide, rfl, rfl⟩


/-! ## Fatal-exit structure of the two drivers (claim C3)

Both `main` drivers run sequential phases and call `process.exit(1)` at
explicit points: connection failure at startup, an empty funded-sender list,
an empty signed-transaction list, and an empty list of successfully
broadcast hashes (`sendResult.txHashes.length === 0`).  The simple driver
additionally exits when the funder balance cannot cover the requested
funding.  Phase outcomes are abstracted into a record; broadcast failures,
confirmation shortfalls and verification mismatches do not appear because no
exit depends on them — they only degrade reported metrics. -/

structure RunOutcome where
  connectOk : Bool
  funderBalanceOk : Bool
  fundedSenders : Nat
  signedTxs : Nat
  broadcastSuccesses : Nat
deriving DecidableEq

/-- Exit code of the mixed driver `main`. -/
def mainExitMixed (r : RunOutcome) : Nat :=
  if r.connectOk = false then 1
  else if r.fundedSenders = 0 then 1
  else if r.signedTxs = 0 then 1
  else if r.broadcastSuccesses = 0 then 1
  else 0

/-- Exit code of the simple driver `main`, which also checks the funder
balance up front. -/
def mainExitSimple (r : RunOutcome) : Nat :=
  if r.connectOk = false then 1
  else if r.funderBalanceOk = false then 1
  else if r.fundedSenders = 0 then 1
  else if r.signedTxs = 0 then 1
  else if r.broadcastSuccesses = 0 then 1
  else 0

/-- C3 (counterexample).  The claim allows a non-zero exit only for
connectivity failure, zero usable senders, or zero signed transactions.  A
run that connects, funds one sender and signs one transaction but has every
broadcast fail still exits non-zero, refuting the claim. -/
theorem mainExit_counterexample :
    mainExitMixed (RunOutcome.mk true true 1 1 0) = 1
    ∧ (RunOutcome.mk true true 1 1 0).connectOk = true
    ∧ (RunOutcome.mk true true 1 1 0).fundedSenders ≠ 0
    ∧ (RunOutcome.mk true true 1 1 0).signedTxs ≠ 0
    ∧ (1 : Nat) ≠ 0 := by
  refine ⟨by decide, by decide, by decide, by decide, by decide⟩

/-- C3 (amended).  Among the explicit exit points, the mixed driver
terminates with a non-zero code exactly when connectivity fails, no sender
is funded, no transaction signs, or no broadcast succeeds; the simple driver
has the same conditions plus an insufficient funder balance.  (Any uncaught
exception — e.g. the generator throwing for a missing contract address —
also exits non-zero through the top-level catch.)  Broadcast failures short
of all of them, confirmation timeouts, verification mismatches and partial
funding shortfalls do not appear in any exit decision. -/
theorem mainExit_conditions (r : RunOutcome) :
    (mainExitMixed r ≠ 0
      ↔ (r.connectOk = false ∨ r.fundedSenders = 0 ∨ r.signedTxs = 0
          ∨ r.broadcastSuccesses = 0))
    ∧ (mainExitSimple r ≠ 0
      ↔ (r.connectOk = false ∨ r.funderBalanceOk = false ∨ r.fundedSenders = 0
          ∨ r.signedTxs = 0 ∨ r.broadcastSuccesses = 0)) := by
  unfold mainExitMixed mainExitSimple
  constructor <;> split_ifs <;> simp_all

/-! ## Broadcast worker-pool accounting (claim C4)

In `fireAndForgetBroadcast` a fixed pool of workers drains the signed-tx
array through a shared index (`const idx = nextIndex++`), so each envelope
is claimed by exactly one worker and contributes exactly one outcome.  The
per-envelope outcome depends on the RPC response: a truthy `result.result`
(a non-empty hash string) is a success and the hash is recorded; otherwise
the error message (`result.error?.message || 'Unknown error'`) is
classified and the failure counter bumped; a thrown `fetch` error is
likewise classified and counted.  The embedding processes the envelopes in
index order — completion order does not affect the counters or the
collected set. -/

/-- JSON-RPC response body as far as the broadcaster inspects it:
the `result` field and `error.message`, each possibly absent. -/
structure RpcBody where
  result : Option String
  errMsg : Option String
deriving DecidableEq

/-- One envelope submission: either an HTTP response body or a thrown
network error. -/
inductive FetchOutcome where
  | ok (body : RpcBody)
  | exn (msg : String)
deriving DecidableEq

/-- JavaScript truthiness of an optional string. -/
def truthy : Option String → Bool
  | none => false
  | some s => !s.isEmpty

/-- `result.error?.message || 'Unknown error'`. -/
def errMsgOrDefault : Option String → String
  | none => "Unknown error"
  | some s => if s.isEmpty then "Unknown error" else s

/-- Increment the per-category error counter (`errorTypes` map). -/
def bumpCount (key : String) : List (String × Nat) → List (String × Nat)
  | [] => [(key, 1)]
  | (k, n) :: rest =>
    if k = key then (k, n + 1) :: rest else (k, n) :: bumpCount key rest

structure BroadcastState where
  successCount : Nat
  errorCount : Nat
  txHashes : List String
  errorTypes : List (String × Nat)
deriving DecidableEq

def initialBroadcastState : BroadcastState :=
  { successCount := 0, errorCount := 0, txHashes := [], errorTypes := [] }

/-- Outcome accounting for one envelope. -/
def broadcastStep (st : BroadcastState) (o : FetchOutcome) : BroadcastState :=
  match o with
  | FetchOutcome.ok body =>
    match body.result with
    | some h =>
      if h.isEmpty then
        { st with
          errorCount := st.errorCount + 1
          errorTypes := bumpCount (categorizeError (some (errMsgOrDefault body.errMsg)))
            st.errorTypes }
      else
        { st with successCount := st.successCount + 1, txHashes := st.txHashes ++ [h] }
    | none =>
      { st with
        errorCount := st.errorCount + 1
        errorTypes := bumpCount (categorizeError (some (errMsgOrDefault body.errMsg)))
          st.errorTypes }
  | FetchOutcome.exn m =>
    { st with
      errorCount := st.errorCount + 1
      errorTypes := bumpCount (categorizeError (some m)) st.errorTypes }

/-- The whole broadcast phase over the per-envelope responses. -/
def fireAndForgetBroadcast (responses : List FetchOutcome) : BroadcastState :=
  responses.foldl broadcastStep initialBroadcastState

theorem broadcast_foldl_invariant (responses : List FetchOutcome) :
    ∀ st : BroadcastState,
    ((responses.foldl broadcastStep st).successCount
        + (responses.foldl broadcastStep st).errorCount
      = st.successCount + st.errorCount + responses.length)
    ∧ (st.successCount = st.txHashes.length →
        (responses.foldl broadcastStep st).successCount
          = (responses.foldl broadcastStep st).txHashes.length)
    ∧ ((∀ h ∈ st.txHashes, h ≠ "") →
        ∀ h ∈ (responses.foldl broadcastStep st).txHashes, h ≠ "") := by
  induction responses with
  | nil => intro st; exact ⟨rfl, fun h => h, fun h => h⟩
  | cons o rest ih =>
    intro st
    simp only [List.foldl_cons, List.length_cons]
    obtain ⟨hcount, hlen, hne⟩ := ih (broadcastStep st o)
    refine ⟨?_, ?_, ?_⟩
    · rw [hcount]
      cases o with
      | ok body =>
        cases hr : body.result with
        | some h =>
          by_cases hh : h.isEmpty <;> simp [broadcastStep, hr, hh] <;> omega
        | none => simp [broadcastStep, hr]; omega
      | exn m => simp [broadcastStep]; omega
    · intro hstart
      refine hlen ?_
      cases o with
      | ok body =>
        cases hr : body.result with
        | some h =>
          by_cases hh : h.isEmpty <;> simp [broadcastStep, hr, hh, hstart]
        | none => simp [broadcastStep, hr, hstart]
      | exn m => simp [broadcastStep, hstart]
    · intro hstart
      refine hne ?_
      cases o with
      | ok body =>
        cases hr : body.result with
        | some h =>
          by_cases hh : h.isEmpty
          · simpa [broadcastStep, hr, hh] using hstart
          · intro x hx
            simp only [broadcastStep, hr, hh] at hx
            simp only [Bool.false_eq_true, if_false, List.mem_append,
              List.mem_singleton] at hx
            rcases hx with hx | hx
            · exact hstart x hx
            · subst hx
              intro hcontra
              subst hcontra
              exact hh rfl
        | none => simpa [broadcastStep, hr] using hstart
      | exn m => simpa [broadcastStep] using hstart

/-- C4.  Every envelope given to the broadcaster contributes exactly one
outcome: the final success count plus failure count equals the number of
envelopes, the collected hash list has exactly one entry per success, and
every recorded hash is non-empty (a falsy — empty — `result.result` is
counted as a failure, never recorded as a hash). -/
theorem broadcast_outcome_accounting (responses : List FetchOutcome) :
    (fireAndForgetBroadcast responses).successCount
        + (fireAndForgetBroadcast responses).errorCount = responses.length
    ∧ (fireAndForgetBroadcast responses).successCount
        = (fireAndForgetBroadcast responses).txHashes.length
    ∧ ∀ h ∈ (fireAndForgetBroadcast responses).txHashes, h ≠ "" := by
  obtain ⟨hcount, hlen, hne⟩ := broadcast_foldl_invariant responses initialBroadcastState
  simp only [fireAndForgetBroadcast]
  refine ⟨?_, hlen rfl, hne (by intro h hx; simp [initialBroadcastState] at hx)⟩
  simpa [initialBroadcastState] using hcount

/-! ## Confirmation polling (claim C8)

`waitForConfirmations` keeps a pending set of hashes, and each round fetches
receipts for up to 100 pending hashes (`Array.from(pending).slice(0, 100)`),
deletes each hash whose receipt arrived and appends the receipt, looping
`while (pending.size > 0 && Date.now() - startTime < timeoutMs)`.  The
wall-clock timeout is modelled as explicit fuel (the number of poll rounds
that fit in the timeout); receipt availability is an oracle indexed by round
and hash, and a receipt is identified by its hash.  When the loop ends —
whether because pending became empty or fuel ran out — the receipts found so
far are returned as an ordinary value; there is no failure path. -/

def waitLoop (avail : Nat → String → Bool) :
    Nat → Nat → List String → List String → List String × List String
  | _, 0, pending, receipts => (receipts, pending)
  | round, fuel + 1, pending, receipts =>
    if pending.isEmpty then (receipts, pending)
    else
      waitLoop avail (round + 1) fuel
        (pending.filter (fun h => !(List.elem h ((pending.take 100).filter (avail round)))))
        (receipts ++ (pending.take 100).filter (avail round))

theorem waitLoop_perm (avail : Nat → String → Bool) :
    ∀ fuel round pending receipts, pending.Nodup →
    List.Perm ((waitLoop avail round fuel pending receipts).1
        ++ (waitLoop avail round fuel pending receipts).2)
      (receipts ++ pending) := by
  intro fuel
  induction fuel with
  | zero =>
    intro round pending receipts hnd
    simp [waitLoop, List.Perm.refl]
  | succ fuel ih =>
    intro round pending receipts hnd
    rw [waitLoop]
    by_cases hp : pending.isEmpty
    · have hpe : pending = [] := List.isEmpty_iff.mp hp
      subst hpe
      simp
    · rw [if_neg hp]
      have hnd2 : (pending.filter
          (fun h => !(List.elem h ((pending.take 100).filter (avail round))))).Nodup :=
        List.Nodup.filter _ hnd
      have hperm := ih (round + 1)
        (pending.filter (fun h => !(List.elem h ((pending.take 100).filter (avail round)))))
        (receipts ++ (pending.take 100).filter (avail round)) hnd2
      refine hperm.trans ?_
      rw [List.append_assoc]
      refine List.Perm.append_left receipts ?_
      have hndf : ((pending.take 100).filter (avail round)).Nodup :=
        List.Nodup.filter _ (hnd.sublist (List.take_sublist 100 pending))
      have hdisj : List.Disjoint ((pending.take 100).filter (avail round))
          (pending.filter
            (fun h => !(List.elem h ((pending.take 100).filter (avail round))))) := by
        intro a ha hb
        have hb2 := (List.mem_filter.mp hb).2
        rw [Bool.not_eq_true'] at hb2
        rw [Bool.eq_false_iff] at hb2
        exact hb2 (List.elem_iff.mpr ha)
      have hndfp := List.Nodup.append hndf hnd2 hdisj
      rw [List.perm_ext_iff_of_nodup hndfp hnd]
      intro a
      constructor
      · intro ha
        rcases List.mem_append.mp ha with ha | ha
        · exact List.take_subset 100 pending (List.mem_filter.mp ha).1
        · exact (List.mem_filter.mp ha).1
      · intro ha
        by_cases haf : a ∈ (pending.take 100).filter (avail round)
        · exact List.mem_append.mpr (Or.inl haf)
        · refine List.mem_append.mpr (Or.inr ?_)
          rw [List.mem_filter]
          refine ⟨ha, ?_⟩
          rw [Bool.not_eq_true', Bool.eq_false_iff]
          intro hc
          exact haf (List.elem_iff.mp hc)

theorem waitLoop_all_available (avail : Nat → String → Bool)
    (hav : ∀ rd h, avail rd h = true) :
    ∀ fuel round pending receipts, pending.length ≤ 100 * fuel →
    (waitLoop avail round fuel pending receipts).2 = [] := by
  intro fuel
  induction fuel with
  | zero =>
    intro round pending receipts hlen
    have : pending = [] := List.length_eq_zero.mp (by omega)
    subst this
    rfl
  | succ fuel ih =>
    intro round pending receipts hlen
    rw [waitLoop]
    by_cases hp : pending.isEmpty
    · rw [if_pos hp, List.isEmpty_iff.mp hp]
    · rw [if_neg hp]
      refine ih (round + 1) _ _ ?_
      have hfull : (pending.take 100).filter (avail round) = pending.take 100 :=
        List.filter_eq_self.mpr (fun a _ => hav round a)
      rw [hfull]
      have hsplit : pending.filter (fun h => !(List.elem h (pending.take 100)))
          = (pending.take 100).filter (fun h => !(List.elem h (pending.take 100)))
            ++ (pending.drop 100).filter (fun h => !(List.elem h (pending.take 100))) := by
        rw [← List.filter_append, List.take_append_drop]
      have htake : (pending.take 100).filter (fun h => !(List.elem h (pending.take 100)))
          = [] := by
        rw [List.filter_eq_nil_iff]
        intro a ha
        simpa using ha
      rw [hsplit, htake, List.nil_append]
      calc ((pending.drop 100).filter (fun h => !(List.elem h (pending.take 100)))).length
          ≤ (pending.drop 100).length := List.length_filter_le _ _
        _ = pending.length - 100 := List.length_drop 100 pending
        _ ≤ 100 * fuel := by
            have := List.length_take 100 pending
            omega

/-- C8.  The confirmation tracker: (a) never loses or invents a hash — the
receipts found and the hashes still pending are together a permutation of
the original pending set plus previously accumulated receipts, each hash
leaving the pending set in the round its receipt is found; (b) exits early
as soon as the pending set is empty, returning the accumulated receipts
unchanged; (c) on timeout (fuel exhausted) returns the partial receipt set
found so far as an ordinary value — there is no error path; (d) against an
endpoint that resolves every receipt, enough rounds empty the pending set
completely. -/
theorem waitForConfirmations_behaviour :
    (∀ (avail : Nat → String → Bool) (fuel round : Nat)
        (pending receipts : List String), pending.Nodup →
      List.Perm ((waitLoop avail round fuel pending receipts).1
          ++ (waitLoop avail round fuel pending receipts).2)
        (receipts ++ pending))
    ∧ (∀ (avail : Nat → String → Bool) (fuel round : Nat) (receipts : List String),
      waitLoop avail round fuel [] receipts = (receipts, []))
    ∧ (∀ (avail : Nat → String → Bool) (round : Nat) (pending receipts : List String),
      waitLoop avail round 0 pending receipts = (receipts, pending))
    ∧ (∀ (avail : Nat → String → Bool) (fuel round : Nat)
        (pending receipts : List String),
      (∀ rd h, avail rd h = true) → pending.length ≤ 100 * fuel →
      (waitLoop avail round fuel pending receipts).2 = []) := by
  refine ⟨fun avail fuel round => waitLoop_perm avail fuel round, ?_, ?_, ?_⟩
  · intro avail fuel round receipts
    cases fuel with
    | zero => rfl
    | succ fuel => rw [waitLoop, if_pos List.isEmpty_nil]
  · intro avail round pending receipts
    rfl
  · intro avail fuel round pending receipts hav hlen
    exact waitLoop_all_available avail hav fuel round pending receipts hlen

/-- Witness for `waitForConfirmations_behaviour`: two distinct hashes, an
endpoint that always resolves, and one round of fuel. -/
theorem waitForConfirmations_witness :
    ((["0xaa", "0xbb"] : List String).Nodup
      ∧ List.Perm ((waitLoop (fun _ _ => true) 0 1 ["0xaa", "0xbb"] []).1
          ++ (waitLoop (fun _ _ => true) 0 1 ["0xaa", "0xbb"] []).2)
        ([] ++ ["0xaa", "0xbb"]))
    ∧ ((∀ rd h, (fun (_ : Nat) (_ : String) => true) rd h = true)
      ∧ (["0xaa", "0xbb"] : List String).length ≤ 100 * 1
      ∧ (waitLoop (fun _ _ => true) 0 1 ["0xaa", "0xbb"] []).2 = []) :=
  ⟨⟨by decide, waitForConfirmations_behaviour.1 (fun _ _ => true) 1 0
      ["0xaa", "0xbb"] [] (by decide)⟩,
    ⟨fun _ _ => rfl, by decide,
      waitForConfirmations_behaviour.2.2.2 (fun _ _ => true) 1 0 ["0xaa", "0xbb"] []
        (fun _ _ => rfl) (by decide)⟩⟩

/-! ## Sample direct-fetch verification (claim C6)

From the simple driver `analyzeBlockTPS`: each sampled receipt leads to a
direct fetch of the transaction and its receipt inside a `try` block.  When
both are found, five boolean checks are evaluated and a failing sample is
recorded with the first failing reason in the order `from`, `to`, `value`,
`status`, `block`; a missing transaction or receipt is recorded as
`not found`; and when the fetch throws, the catch branch records the raw
thrown message (`reason: err.message`) — an arbitrary string outside the
named list.  Sender addresses and the expected recipient are stored
lower-cased.  The fetch result is therefore an `Except`: a thrown message or
an optional transaction/receipt pair.

The mixed driver's `analyzeBlockTPS` performs no sample direct-fetch
verification at all: its returned `sampleVerified` and `sampleSize` are both
the fabricated figure `Math.min(10, verifiedTxCount)`, computed from the
verified count alone and never consulting `expectedTxDetails` — so no sample
failure of any kind is ever recorded there. -/

structure FetchedTx where
  fromAddr : String
  toAddr : Option String
  value : Nat
deriving DecidableEq

structure TxReceipt where
  status : Nat
  blockNumber : Int
deriving DecidableEq

structure ExpectedTxDetails where
  recipient : String
  value : Nat
  senderAddresses : List String
deriving DecidableEq

inductive SampleOutcome where
  | verified
  | failed (reason : String)
deriving DecidableEq

/-- The per-sample check of the explicit sample verification in the simple
driver, the catch branch included. -/
def sampleVerifyOne (fetched : Except String (Option (FetchedTx × TxReceipt)))
    (details : ExpectedTxDetails) : SampleOutcome :=
  match fetched with
  | Except.error thrownMsg => SampleOutcome.failed thrownMsg
  | Except.ok none => SampleOutcome.failed "not found"
  | Except.ok (some (tx, rcpt)) =>
    let fromMatch := List.elem (lowerStr tx.fromAddr) details.senderAddresses
    let toMatch := tx.toAddr.map lowerStr == some details.recipient
    let valueMatch := tx.value == details.value
    let statusOk := rcpt.status == 1
    let blockConfirmed := decide (0 < rcpt.blockNumber)
    if fromMatch && toMatch && valueMatch && statusOk && blockConfirmed then
      SampleOutcome.verified
    else
      SampleOutcome.failed
        (if !fromMatch then "from"
        else if !toMatch then "to"
        else if !valueMatch then "value"
        else if !statusOk then "status"
        else "block")

/-- The mixed driver's reported sample-verified figure:
`Math.min(10, verifiedTxCount)`, independent of any transaction data. -/
def sampleVerifiedMixed (verifiedTxCount : Nat) : Nat :=
  min 10 verifiedTxCount

/-- The mixed driver's reported sample size: the same fabricated figure. -/
def sampleSizeMixed (verifiedTxCount : Nat) : Nat :=
  min 10 verifiedTxCount

/-- C6 (counterexample).  The claim covers the sample verification of both
cited drivers, but the mixed driver fetches no sample at all: with 10
on-chain-verified transactions it reports 10 of 10 samples verified whatever
the expected details are, so a recipient-mismatched transaction among them
is counted as verified and no failure reason — in particular not `to` — is
ever recorded; the genuine check (embedded from the simple driver) flags
that very transaction as `failed "to"`. -/
theorem mixedSample_counterexample :
    sampleVerifiedMixed 10 = 10
    ∧ sampleSizeMixed 10 = 10
    ∧ sampleVerifyOne
        (Except.ok (some ({ fromAddr := "0xAbC", toAddr := some "0xDEF", value := 5 },
          { status := 1, blockNumber := 3 })))
        { recipient := "0xfff", value := 5, senderAddresses := ["0xabc"] }
      = SampleOutcome.failed "to" := by
  refine ⟨by decide, by decide, by decide⟩

/-- The failure reason of a fetched sample is always one of the four named
field reasons or `block`. -/
theorem ifReason_mem (b1 b2 b3 b4 : Bool) :
    (if !b1 then "from" else if !b2 then "to" else if !b3 then "value"
      else if !b4 then "status" else "block")
      ∈ ["not found", "from", "to", "value", "status", "block"] := by
  cases b1 <;> cases b2 <;> cases b3 <;> cases b4 <;> decide

/-- C6 (amended).  In the simple driver's sample direct-fetch verification,
a sampled transaction whose sender is a known sender and whose receipt
status is success, but whose recipient differs from the expected recipient,
is recorded as the named failure `to` and is not counted as verified; every
sample is either verified, recorded under one of the named reasons
`not found`, `from`, `to`, `value`, `status`, `block`, or — when the direct
fetch throws — recorded with the raw thrown message as its reason.  The
mixed driver performs no sample direct-fetch verification: it reports the
fabricated figures `sampleVerified = sampleSize = min 10 verifiedTxCount`,
so no sample failure is ever recorded there. -/
theorem sampleVerify_to_mismatch (tx : FetchedTx) (rcpt : TxReceipt)
    (details : ExpectedTxDetails)
    (hfrom : List.elem (lowerStr tx.fromAddr) details.senderAddresses = true)
    (hstatus : rcpt.status = 1)
    (hto : tx.toAddr.map lowerStr ≠ some details.recipient) :
    sampleVerifyOne (Except.ok (some (tx, rcpt))) details = SampleOutcome.failed "to"
    ∧ sampleVerifyOne (Except.ok (some (tx, rcpt))) details ≠ SampleOutcome.verified
    ∧ (∀ (fetched : Except String (Option (FetchedTx × TxReceipt)))
        (d : ExpectedTxDetails),
        sampleVerifyOne fetched d = SampleOutcome.verified
        ∨ ∃ r, sampleVerifyOne fetched d = SampleOutcome.failed r
            ∧ (r ∈ ["not found", "from", "to", "value", "status", "block"]
              ∨ fetched = Except.error r))
    ∧ (∀ verifiedTxCount : Nat,
        sampleVerifiedMixed verifiedTxCount = sampleSizeMixed verifiedTxCount) := by
  have htoBeq : (tx.toAddr.map lowerStr == some details.recipient) = false := by
    rw [beq_eq_false_iff_ne]
    exact hto
  refine ⟨?_, ?_, ?_, fun _ => rfl⟩
  · simp only [sampleVerifyOne, htoBeq, hfrom, hstatus]
    simp
  · simp only [sampleVerifyOne, htoBeq, hfrom, hstatus]
    simp
  · intro fetched d
    match fetched with
    | Except.error thrownMsg => exact Or.inr ⟨thrownMsg, rfl, Or.inr rfl⟩
    | Except.ok none => exact Or.inr ⟨"not found", rfl, Or.inl (by decide)⟩
    | Except.ok (some (tx2, rcpt2)) =>
      simp only [sampleVerifyOne]
      by_cases hcond : (List.elem (lowerStr tx2.fromAddr) d.senderAddresses
          && Option.map lowerStr tx2.toAddr == some d.recipient
          && tx2.value == d.value && rcpt2.status == 1
          && decide (0 < rcpt2.blockNumber)) = true
      · rw [if_pos hcond]
        exact Or.inl rfl
      · rw [if_neg hcond]
        exact Or.inr ⟨_, rfl, Or.inl (ifReason_mem _ _ _ _)⟩

/-- Witness for `sampleVerify_to_mismatch`: a known sender, success status,
wrong recipient. -/
theorem sampleVerify_witness :
    (List.elem (lowerStr "0xAbC") ["0xabc"] = true
      ∧ (1 : Nat) = 1
      ∧ (some "0xDEF" : Option String).map lowerStr ≠ some "0xfff")
    ∧ sampleVerifyOne
        (Except.ok (some ({ fromAddr := "0xAbC", toAddr := some "0xDEF", value := 5 },
          { status := 1, blockNumber := 3 })))
        { recipient := "0xfff", value := 5, senderAddresses := ["0xabc"] }
      = SampleOutcome.failed "to" :=
  ⟨⟨by decide, rfl, by decide⟩,
    (sampleVerify_to_mismatch
      { fromAddr := "0xAbC", toAddr := some "0xDEF", value := 5 }
      { status := 1, blockNumber := 3 }
      { recipient := "0xfff", value := 5, senderAddresses := ["0xabc"] }
      (by decide) rfl (by decide)).1⟩

/-! ## Block-inclusion check (claim C7)

The mixed driver fetches every block number from the minimum to the maximum
receipt block (`for (let i = firstBlock; i <= lastBlock; i++)`), each with
`getBlock(i, false)` — transaction-hash lists only.  The simple driver
instead fetches only the deduplicated, sorted block numbers that occur in
the receipts (`[...new Set(receipts.map(r => r.blockNumber))].sort(...)`).
Both count a claimed hash by scanning each fetched block's hash list and
testing lower-cased membership in the claimed-hash map. -/

structure BlockData where
  number : Nat
  txs : List String
deriving DecidableEq

/-- Fetch plan of the mixed driver: the full inclusive range. -/
def blockFetchPlanMixed (firstBlock lastBlock : Nat) : List Nat :=
  List.range' firstBlock (lastBlock + 1 - firstBlock)

def insertSorted (x : Nat) : List Nat → List Nat
  | [] => [x]
  | y :: ys => if x ≤ y then x :: y :: ys else y :: insertSorted x ys

def sortNats : List Nat → List Nat
  | [] => []
  | x :: xs => insertSorted x (sortNats xs)

/-- Fetch plan of the simple driver: distinct receipt block numbers,
ascending. -/
def blockFetchPlanSimple (receiptBlocks : List Nat) : List Nat :=
  sortNats receiptBlocks.dedup

/-- Per-block inclusion count: block hashes whose lower-cased form is a
claimed hash. -/
def countIncludedInBlock (claimed : List String) (b : BlockData) : Nat :=
  (b.txs.filter (fun h => List.elem (lowerStr h) claimed)).length

/-- The nested verification loop over all fetched blocks. -/
def countIncluded (claimed : List String) : List BlockData → Nat
  | [] => 0
  | b :: rest => countIncludedInBlock claimed b + countIncluded claimed rest

theorem mem_insertSorted (x a : Nat) :
    ∀ l : List Nat, a ∈ insertSorted x l ↔ a = x ∨ a ∈ l := by
  intro l
  induction l with
  | nil => simp [insertSorted]
  | cons y ys ih =>
    rw [insertSorted]
    split_ifs with hle
    · simp
    · simp only [List.mem_cons, ih]
      tauto

theorem mem_sortNats (a : Nat) : ∀ l : List Nat, a ∈ sortNats l ↔ a ∈ l := by
  intro l
  induction l with
  | nil => simp [sortNats]
  | cons x xs ih =>
    rw [sortNats]
    rw [mem_insertSorted]
    simp [ih]

/-- C7 (counterexample).  The claim says every block from the minimum to the
maximum receipt block number is fetched.  With receipts in blocks 5 and 9,
the simple driver fetches only blocks 5 and 9: block 7 lies in the span but
is not fetched (the mixed driver does fetch it). -/
theorem blockFetchPlan_counterexample :
    blockFetchPlanSimple [5, 9] = [5, 9]
    ∧ ¬(7 ∈ blockFetchPlanSimple [5, 9])
    ∧ 5 ≤ 7 ∧ 7 ≤ 9
    ∧ 7 ∈ blockFetchPlanMixed 5 9 := by
  refine ⟨by decide, by decide, by decide, by decide, by decide⟩

/-- C7 (amended).  The mixed driver's block-inclusion check fetches exactly
the blocks from the minimum to the maximum receipt block number (hash lists
only), while the simple driver fetches exactly the distinct block numbers
appearing in the receipts; in both, each fetched block's hash list is
scanned and a hash contributes to the inclusion count exactly when its
lower-cased form is among the claimed hashes — equivalently the total count
is the number of claimed hashes across the concatenation of the fetched
blocks' hash lists. -/
theorem blockInclusion_check :
    (∀ firstBlock lastBlock b : Nat,
      b ∈ blockFetchPlanMixed firstBlock lastBlock ↔ firstBlock ≤ b ∧ b ≤ lastBlock)
    ∧ (∀ (receiptBlocks : List Nat) (b : Nat),
      b ∈ blockFetchPlanSimple receiptBlocks ↔ b ∈ receiptBlocks)
    ∧ (∀ (claimed : List String) (blocks : List BlockData),
      countIncluded claimed blocks
        = ((blocks.map BlockData.txs).flatten.filter
            (fun h => List.elem (lowerStr h) claimed)).length) := by
  refine ⟨?_, ?_, ?_⟩
  · intro firstBlock lastBlock b
    rw [blockFetchPlanMixed, List.mem_range'_1]
    omega
  · intro receiptBlocks b
    rw [blockFetchPlanSimple, mem_sortNats, List.mem_dedup]
  · intro claimed blocks
    induction blocks with
    | nil => rfl
    | cons b rest ih =>
      simp only [countIncluded, countIncludedInBlock, List.map_cons, List.flatten_cons,
        List.filter_append, List.length_append, ih]
